import Mathlib

/-!
Shallow embedding of the crypto market tracker pipeline
(`main.py` and `app.py`: classes `CryptoTracker` and `CryptoWebTracker`).

Numeric ticker fields travel as strings and are coerced with
`pd.to_numeric(errors='coerce')`; a failed parse yields a missing value,
modelled as `none : Option ℚ`.  Floating-point arithmetic is modelled
over `ℚ`.  `df.sort_values('quoteVolume', ascending=False)` is modelled
after pandas `nargsort`: rows with a missing key are masked out and
appended after all keyed rows in their original relative order
(`na_position='last'` default); keyed rows are ordered by the key
descending.  The order of rows with equal keys is implementation-
defined for the default `kind='quicksort'` (pandas documents
stability only for `kind='mergesort'`/`'stable'`), so the sort is
modelled at two levels: `sort_values_desc_with` keeps the keyed-row
sort abstract, constrained only by the documented contract
(`DescSortContract`), and is used for every tie-order-sensitive
statement; `sort_values_desc` is its stable instance, an executable
refinement adequate for the tie-order-insensitive properties.
Network and file I/O sit outside the model: fetch results and write
outcomes are parameters of the loop-iteration functions.
-/

open scoped List

namespace Crypto

/-- Numeric value of a digit string (most significant digit first). -/
def digitsVal (cs : List Char) : Nat :=
  cs.foldl (fun a c => 10 * a + (c.toNat - 48)) 0

/-- Exponent suffix of a decimal literal: `[+|-] digits`, nonempty. -/
def parseExp (cs : List Char) : Option Int :=
  match cs with
  | '-' :: ds => if ds ≠ [] ∧ ds.all Char.isDigit then some (-(digitsVal ds : Int)) else none
  | '+' :: ds => if ds ≠ [] ∧ ds.all Char.isDigit then some (digitsVal ds : Int) else none
  | ds => if ds ≠ [] ∧ ds.all Char.isDigit then some (digitsVal ds : Int) else none

/-- Mantissa of a decimal literal: digits with an optional single
decimal point, at least one digit overall.  Returns the value and the
unconsumed remainder. -/
def parseMantissa (cs : List Char) : Option ℚ × List Char :=
  let ip := cs.takeWhile Char.isDigit
  let rest := cs.dropWhile Char.isDigit
  match rest with
  | '.' :: r =>
      let fp := r.takeWhile Char.isDigit
      let r2 := r.dropWhile Char.isDigit
      (if ip = [] ∧ fp = [] then none
       else some ((digitsVal ip : ℚ) + (digitsVal fp : ℚ) / (10 : ℚ) ^ fp.length), r2)
  | _ => (if ip = [] then none else some ((digitsVal ip : ℚ)), rest)

/-- Model of `pd.to_numeric(s, errors='coerce')` on a single string:
a decimal literal with optional sign, fraction and exponent parses to
its value; anything else coerces to a missing value. -/
def to_numeric (s : String) : Option ℚ :=
  let core : List Char → Option ℚ := fun cs =>
    match parseMantissa cs with
    | (some m, []) => some m
    | (some m, 'e' :: r) => (parseExp r).map (fun k => m * (10 : ℚ) ^ k)
    | (some m, 'E' :: r) => (parseExp r).map (fun k => m * (10 : ℚ) ^ k)
    | _ => none
  match s.toList with
  | '-' :: cs => (core cs).map (fun q => -q)
  | '+' :: cs => core cs
  | cs => core cs

/-- One raw 24h ticker entry as returned by the exchange; all numeric
fields are transmitted as decimal strings. -/
structure RawTicker where
  symbol : String
  lastPrice : String
  volume : String
  quoteVolume : String
  priceChangePercent : String
  weightedAvgPrice : String
  deriving DecidableEq

/-- A ticker row after `get_market_data` attached a display name. -/
structure RawRow where
  symbol : String
  name : String
  lastPrice : String
  volume : String
  quoteVolume : String
  priceChangePercent : String
  weightedAvgPrice : String
  deriving DecidableEq

/-- The characters of the quote-currency suffix `"USDT"`. -/
def usdtChars : List Char := ['U', 'S', 'D', 'T']

/-- Worker for `removeUSDT`, structurally recursive on a fuel bound;
the fuel-exhausted arm is unreachable whenever the fuel is at least
the list length, since every step consumes at least one character. -/
def removeUSDTGo : Nat → List Char → List Char
  | 0, l => l
  | _ + 1, [] => []
  | fuel + 1, c :: cs =>
    if usdtChars.isPrefixOf (c :: cs) then removeUSDTGo fuel ((c :: cs).drop 4)
    else c :: removeUSDTGo fuel cs

/-- Python `s.replace('USDT', '')` on a character list: every
non-overlapping occurrence of `"USDT"`, found left to right, is
removed — not only a trailing suffix. -/
def removeUSDT (cs : List Char) : List Char := removeUSDTGo cs.length cs

/-- Python `'USDT' in s`: whether `"USDT"` occurs contiguously. -/
def containsUSDT : List Char → Bool
  | [] => false
  | c :: cs => usdtChars.isPrefixOf (c :: cs) || containsUSDT cs

/-- Python `str.upper` restricted to ASCII, which covers ticker
symbols. -/
def upperStr (s : String) : String := ⟨s.toList.map Char.toUpper⟩

/-- Python `s.replace('USDT', '')` on a `String`. -/
def removeUSDTs (s : String) : String := ⟨removeUSDT s.toList⟩

/-- Python `s.endswith('USDT')`. -/
def endsWithUSDT (s : String) : Bool := usdtChars.isSuffixOf s.toList

/-- `CryptoTracker.get_market_data` (main.py lines 51-72, identical in
app.py) after a successful ticker request: keep the `USDT`-suffixed
pairs and attach a display name, looking up the uppercased
`replace('USDT', '')` key in the (possibly empty) name map and falling
back to the key itself.  The network layer is outside the model: the
ticker list and name map are parameters. -/
def get_market_data (names : List (String × String)) (data : List RawTicker) : List RawRow :=
  (data.filter (fun t => endsWithUSDT t.symbol)).map (fun t =>
    let sym := upperStr (removeUSDTs t.symbol)
    { symbol := t.symbol, name := ((names.lookup sym).getD sym),
      lastPrice := t.lastPrice, volume := t.volume, quoteVolume := t.quoteVolume,
      priceChangePercent := t.priceChangePercent, weightedAvgPrice := t.weightedAvgPrice })

/-- A row after the `pd.to_numeric(..., errors='coerce')` pass of
`process_data` (main.py lines 77-84): each numeric column holds a
value or a missing entry. -/
structure ParsedRow where
  symbol : String
  name : String
  lastPrice : Option ℚ
  volume : Option ℚ
  quoteVolume : Option ℚ
  priceChangePercent : Option ℚ
  weightedAvgPrice : Option ℚ
  deriving DecidableEq

/-- Column coercion for one row (main.py lines 83-84). -/
def parseRow (r : RawRow) : ParsedRow :=
  { symbol := r.symbol, name := r.name,
    lastPrice := to_numeric r.lastPrice, volume := to_numeric r.volume,
    quoteVolume := to_numeric r.quoteVolume,
    priceChangePercent := to_numeric r.priceChangePercent,
    weightedAvgPrice := to_numeric r.weightedAvgPrice }

/-- Comparison used by the descending sort: `oGe x y` holds when `x`
sits at or above `y`, a missing value lying below every present
value. -/
def oGe : Option ℚ → Option ℚ → Prop
  | _, none => True
  | none, some _ => False
  | some x, some y => y ≤ x

instance instDecidableOGe : ∀ x y : Option ℚ, Decidable (oGe x y)
  | none, none => .isTrue trivial
  | some _, none => .isTrue trivial
  | none, some _ => .isFalse id
  | some x, some y => inferInstanceAs (Decidable (y ≤ x))

/-- Row comparison on the `quoteVolume` sort key. -/
def qvGe (a b : ParsedRow) : Prop := oGe a.quoteVolume b.quoteVolume

instance instDecidableQvGe : DecidableRel qvGe := fun a b =>
  inferInstanceAs (Decidable (oGe a.quoteVolume b.quoteVolume))

theorem oGe_total (x y : Option ℚ) : oGe x y ∨ oGe y x := by
  match x, y with
  | none, none => exact Or.inl trivial
  | some _, none => exact Or.inl trivial
  | none, some _ => exact Or.inr trivial
  | some x, some y => exact (le_total y x).imp id id

theorem oGe_trans {x y z : Option ℚ} (h1 : oGe x y) (h2 : oGe y z) : oGe x z := by
  match x, y, z with
  | none, _, none => trivial
  | some _, _, none => trivial
  | _, none, some _ => exact absurd h2 id
  | none, some _, some _ => exact absurd h1 id
  | some x, some y, some z => exact le_trans h2 h1

instance : IsTotal ParsedRow qvGe := ⟨fun a b => oGe_total a.quoteVolume b.quoteVolume⟩

instance : IsTrans ParsedRow qvGe := ⟨fun _ _ _ h1 h2 => oGe_trans h1 h2⟩

/-- Model of `df.sort_values('quoteVolume', ascending=False)`
(main.py line 87) after pandas `nargsort`, with the kind-dependent
keyed-row sort abstracted: rows with a missing key are masked out and
appended after all keyed rows in their original relative order
(`na_position='last'` default, handled outside the kind-dependent
argsort); the keyed rows are ordered by the key descending by `alg`,
whose order on equal keys pandas leaves to the implementation for the
default `kind='quicksort'`. -/
def sort_values_desc_with (alg : List ParsedRow → List ParsedRow) (xs : List ParsedRow) :
    List ParsedRow :=
  alg (xs.filter (fun p => p.quoteVolume.isSome)) ++
    xs.filter (fun p => p.quoteVolume.isNone)

/-- What pandas documents of the keyed-row sort for every `kind`: the
output is a permutation of the input, ordered by the key descending.
Stability is documented only for `kind='mergesort'`/`'stable'`, so it
is not part of this contract. -/
def DescSortContract (alg : List ParsedRow → List ParsedRow) : Prop :=
  ∀ l : List ParsedRow, alg l ~ l ∧ (alg l).Pairwise qvGe

/-- The stable instance of `sort_values_desc_with`: an executable
refinement of `df.sort_values('quoteVolume', ascending=False)` that
fixes the implementation-defined tie order to the input order, used
for the tie-order-insensitive properties. -/
def sort_values_desc (xs : List ParsedRow) : List ParsedRow :=
  List.insertionSort qvGe (xs.filter (fun p => p.quoteVolume.isSome)) ++
    xs.filter (fun p => p.quoteVolume.isNone)

/-- The coerced and sorted rows of one `process_data` call. -/
def sorted_parsed (rows : List RawRow) : List ParsedRow :=
  sort_values_desc (rows.map parseRow)

/-- `.head(50)` applied to the sorted rows (main.py line 87). -/
def ranked_rows (rows : List RawRow) : List ParsedRow :=
  (sorted_parsed rows).take 50

/-- One row of the published table (main.py lines 92-100). -/
structure MarketRow where
  name : String
  symbol : String
  price : Option ℚ
  market_cap : Option ℚ
  volume_24h : Option ℚ
  change_24h : Option ℚ
  avg_price : Option ℚ
  deriving DecidableEq

/-- Projection of a ranked row into the published shape, with
`market_cap = lastPrice * volume` (main.py line 90) — missing whenever
either factor is missing, as for pandas `NaN` arithmetic — and the
`Symbol` column `df['symbol'].str.replace('USDT', '')` (line 94). -/
def toMarketRow (p : ParsedRow) : MarketRow :=
  { name := p.name,
    symbol := removeUSDTs p.symbol,
    price := p.lastPrice,
    market_cap :=
      match p.lastPrice, p.volume with
      | some x, some v => some (x * v)
      | _, _ => none,
    volume_24h := p.volume,
    change_24h := p.priceChangePercent,
    avg_price := p.weightedAvgPrice }

/-- The exception `process_data` can raise: column access on the
column-free `pd.DataFrame([])` raises `KeyError`. -/
inductive PdError where
  | keyError
  deriving DecidableEq

/-- `CryptoTracker.process_data` (main.py lines 74-102, identical in
app.py lines 78-106): coerce the five numeric columns, sort by
`quoteVolume` descending, keep the first 50 rows, add `market_cap`,
project into the published shape.  On the empty input list
`pd.DataFrame([])` has no columns, so `df['lastPrice']` at line 84
raises `KeyError`. -/
def process_data (rows : List RawRow) : Except PdError (List MarketRow) :=
  if rows.isEmpty then .error .keyError
  else .ok ((ranked_rows rows).map toMarketRow)

/-- `ranked_rows` over an arbitrary keyed-row sort (see
`sort_values_desc_with`). -/
def ranked_rows_with (alg : List ParsedRow → List ParsedRow) (rows : List RawRow) :
    List ParsedRow :=
  (sort_values_desc_with alg (rows.map parseRow)).take 50

/-- `process_data` over an arbitrary keyed-row sort; the shipped
`process_data` is its stable instance
`process_data_with (List.insertionSort qvGe)`. -/
def process_data_with (alg : List ParsedRow → List ParsedRow) (rows : List RawRow) :
    Except PdError (List MarketRow) :=
  if rows.isEmpty then .error .keyError
  else .ok ((ranked_rows_with alg rows).map toMarketRow)

/-- A keyed-row sort meeting the documented contract
(`DescSortContract`, see `revTieSort_contract`) whose order on equal
keys is the reverse of the input order: sort the reversed list with
the stable sort. -/
def revTieSort (l : List ParsedRow) : List ParsedRow := List.insertionSort qvGe l.reverse

/-- pandas `Series.sum()` with default `skipna=True`: missing entries
are skipped; an empty or all-missing column sums to `0`. -/
def nansum (xs : List (Option ℚ)) : ℚ := (xs.filterMap id).sum

/-- pandas `Series.mean()`: mean of the present entries, missing when
none is present. -/
def nanmean (xs : List (Option ℚ)) : Option ℚ :=
  let v := xs.filterMap id
  if v.isEmpty then none else some (v.sum / (v.length : ℚ))

/-- pandas `Series.median()`: median of the present entries (mean of
the two middle entries for an even count), missing when none is
present. -/
def nanmedian (xs : List (Option ℚ)) : Option ℚ :=
  let v := List.insertionSort (fun a b : ℚ => a ≤ b) (xs.filterMap id)
  if v.length = 0 then none
  else if v.length % 2 = 1 then some (v.getD (v.length / 2) 0)
  else some ((v.getD (v.length / 2 - 1) 0 + v.getD (v.length / 2) 0) / 2)

/-- pandas `Series.max()` (skipna): missing when no entry is present. -/
def nanmax (xs : List (Option ℚ)) : Option ℚ :=
  (xs.filterMap id).foldl (fun acc x =>
    match acc with
    | none => some x
    | some m => some (max m x)) none

/-- pandas `Series.min()` (skipna): missing when no entry is present. -/
def nanmin (xs : List (Option ℚ)) : Option ℚ :=
  (xs.filterMap id).foldl (fun acc x =>
    match acc with
    | none => some x
    | some m => some (min m x)) none

/-- The scalar fields of the `analyze_market` statistics dictionary
(main.py lines 116-145, identical in app.py lines 120-149).  The
wall-clock timestamp and the record-valued fields
(`top_5_by_market_cap`, `highest_24h_change`, `lowest_24h_change`) sit
outside every claim and are omitted; the source would raise on the
record fields for an empty table, a table the pipeline never builds
because `process_data` raises first on empty input. -/
structure MarketStats where
  total_market_cap : ℚ
  total_volume_24h : ℚ
  avg_price : Option ℚ
  median_price : Option ℚ
  positive_performers : Nat
  negative_performers : Nat
  highest_price : Option ℚ
  lowest_price : Option ℚ
  average_24h_change : Option ℚ
  deriving DecidableEq

/-- `CryptoTracker.analyze_market`, scalar fields (see
`MarketStats`).  `len(df[df['Change (24h)'] > 0])` counts the rows
whose comparison is `True`; a missing entry compares `False` on both
sides. -/
def analyze_market (t : List MarketRow) : MarketStats :=
  { total_market_cap := nansum (t.map (fun r => r.market_cap)),
    total_volume_24h := nansum (t.map (fun r => r.volume_24h)),
    avg_price := nanmean (t.map (fun r => r.price)),
    median_price := nanmedian (t.map (fun r => r.price)),
    positive_performers :=
      (t.filter (fun r =>
        match r.change_24h with
        | some c => decide (0 < c)
        | none => false)).length,
    negative_performers :=
      (t.filter (fun r =>
        match r.change_24h with
        | some c => decide (c < 0)
        | none => false)).length,
    highest_price := nanmax (t.map (fun r => r.price)),
    lowest_price := nanmin (t.map (fun r => r.price)),
    average_24h_change := nanmean (t.map (fun r => r.change_24h)) }

/-- One aggregation pass of the pipeline: `process_data` then
`analyze_market` on its table. -/
def aggregate (rows : List RawRow) : Except PdError (List MarketRow × MarketStats) :=
  (process_data rows).map (fun t => (t, analyze_market t))

/-- The hourly report gate shared by both loops (main.py lines
252-256, app.py lines 262-266): write the document iff the current
wall-clock hour differs from the `last_report_hour` marker, then set
the marker to the current hour.  Returns the new marker and whether a
document write happened. -/
def report_step (marker : Option Nat) (hour : Nat) : Option Nat × Bool :=
  if marker = some hour then (marker, false) else (some hour, true)

/-- The document writes over a run of successful cycles with the given
wall-clock hours, starting from the given marker. -/
def writes_of (marker : Option Nat) : List Nat → List Bool
  | [] => []
  | h :: hs => (report_step marker h).2 :: writes_of (report_step marker h).1 hs

/-- Observable side effects of one iteration of a `run` loop. -/
inductive Ev where
  /-- the ticker request was issued -/
  | fetched
  /-- `update_excel` was entered (it may raise) -/
  | excelWrite
  /-- `make_report` was entered (it may raise) -/
  | docWrite
  /-- `time.sleep(self.update_interval)` ran -/
  | slept
  deriving DecidableEq

/-- Python truthiness of the fetch result: `None` and the empty list
are falsy (`if not data`). -/
def fetch_falsy : Option (List RawRow) → Bool
  | none => true
  | some [] => true
  | some (_ :: _) => false

/-- One iteration of `CryptoTracker.run` (main.py lines 234-265).
The state is `last_report_hour`; `fetched` is what `get_market_data`
returned and `hour` is `datetime.now().hour`.  On a falsy fetch
result, the `continue` at line 242 skips the remainder of the loop
body — including `time.sleep` at line 265.  Any exception inside the
`try` block is caught at line 261 and the iteration falls through to
the sleep. -/
def run_iteration (marker : Option Nat) (fetched : Option (List RawRow)) (hour : Nat) :
    Option Nat × List Ev :=
  if fetch_falsy fetched then (marker, [Ev.fetched])
  else
    match fetched with
    | none => (marker, [Ev.fetched])
    | some rows =>
      match process_data rows with
      | .error _ => (marker, [Ev.fetched, Ev.slept])
      | .ok _t =>
        if marker = some hour then (marker, [Ev.fetched, Ev.excelWrite, Ev.slept])
        else (some hour, [Ev.fetched, Ev.excelWrite, Ev.docWrite, Ev.slept])

/-- The web snapshot: `latest_data` of app.py (table and stats of the
last completed cycle). -/
structure Snapshot where
  table : List MarketRow
  stats : MarketStats
  deriving DecidableEq

/-- The mutable `CryptoWebTracker` state these claims observe:
`latest_data` and `last_report_hour`. -/
structure WebState where
  latest : Option Snapshot
  marker : Option Nat
  deriving DecidableEq

/-- One iteration of `CryptoWebTracker.run` (app.py lines 237-274),
with the outcomes of the two writers as parameters: `excelOk` /
`reportOk` say whether `update_excel` / `make_report` return normally
or raise.  Order inside the `try` block: spreadsheet write (line 252),
then the `latest_data` update (lines 255-259), then the hour-gated
document write (lines 262-266).  Any exception is caught at line 271
and the iteration falls through to `time.sleep` at line 274 — except a
falsy fetch result, whose `continue` at line 245 skips the sleep. -/
def web_run_iteration (st : WebState) (fetched : Option (List RawRow)) (hour : Nat)
    (excelOk reportOk : Bool) : WebState × List Ev :=
  if fetch_falsy fetched then (st, [Ev.fetched])
  else
    match fetched with
    | none => (st, [Ev.fetched])
    | some rows =>
      match process_data rows with
      | .error _ => (st, [Ev.fetched, Ev.slept])
      | .ok t =>
        if excelOk = false then (st, [Ev.fetched, Ev.excelWrite, Ev.slept])
        else
          let st1 : WebState :=
            { latest := some { table := t, stats := analyze_market t }, marker := st.marker }
          if st.marker = some hour then (st1, [Ev.fetched, Ev.excelWrite, Ev.slept])
          else if reportOk = false then
            (st1, [Ev.fetched, Ev.excelWrite, Ev.docWrite, Ev.slept])
          else
            ({ latest := st1.latest, marker := some hour },
             [Ev.fetched, Ev.excelWrite, Ev.docWrite, Ev.slept])

/-- The first worked-example row of the spec (section 8). -/
def rowBTC : RawRow :=
  { symbol := "BTCUSDT", name := "Bitcoin", lastPrice := "50000", volume := "10",
    quoteVolume := "500000", priceChangePercent := "2", weightedAvgPrice := "49000" }

/-- The second worked-example row of the spec (section 8). -/
def rowETH : RawRow :=
  { symbol := "ETHUSDT", name := "Ethereum", lastPrice := "3000", volume := "100",
    quoteVolume := "300000", priceChangePercent := "-1", weightedAvgPrice := "2950" }

/-- A row whose `priceChangePercent` fails to parse. -/
def rowBadChange : RawRow :=
  { symbol := "DOGEUSDT", name := "Dogecoin", lastPrice := "1", volume := "1000",
    quoteVolume := "100", priceChangePercent := "abc", weightedAvgPrice := "1" }

/-- A row whose `quoteVolume` fails to parse. -/
def rowBadQV : RawRow :=
  { symbol := "XRPUSDT", name := "XRP", lastPrice := "2", volume := "5",
    quoteVolume := "n/a", priceChangePercent := "1", weightedAvgPrice := "2" }

/-- First of two eligible rows with equal `quoteVolume` (a rank tie). -/
def rowTieA : RawRow :=
  { symbol := "AAAUSDT", name := "AlphaA", lastPrice := "1", volume := "1",
    quoteVolume := "100", priceChangePercent := "0", weightedAvgPrice := "1" }

/-- Second row of the tie. -/
def rowTieB : RawRow :=
  { symbol := "BBBUSDT", name := "BetaB", lastPrice := "2", volume := "1",
    quoteVolume := "100", priceChangePercent := "0", weightedAvgPrice := "2" }

/-! ### Properties of the sort model -/

theorem oGe_none_right (x : Option ℚ) : oGe x none := by
  cases x <;> trivial

theorem oGe_none_left {y : Option ℚ} (h : oGe none y) : y = none := by
  cases y
  · rfl
  · exact absurd h id

theorem pairwise_of_forall_mem {α : Type _} {R : α → α → Prop} :
    ∀ {l : List α}, (∀ a ∈ l, ∀ b ∈ l, R a b) → l.Pairwise R
  | [], _ => List.Pairwise.nil
  | x :: xs, h =>
    List.Pairwise.cons (fun b hb => h x (List.mem_cons_self x xs) b (List.mem_cons_of_mem x hb))
      (pairwise_of_forall_mem fun a ha b hb =>
        h a (List.mem_cons_of_mem x ha) b (List.mem_cons_of_mem x hb))

/-- The stable sort meets the documented descending contract. -/
theorem insertionSort_qvGe_contract : DescSortContract (List.insertionSort qvGe) := fun l =>
  ⟨List.perm_insertionSort qvGe l, List.sorted_insertionSort qvGe l⟩

/-- `revTieSort` also meets the documented descending contract, while
reversing the relative order of equal keys. -/
theorem revTieSort_contract : DescSortContract revTieSort := fun l =>
  ⟨(List.perm_insertionSort qvGe l.reverse).trans (List.reverse_perm l),
   List.sorted_insertionSort qvGe l.reverse⟩

/-- Any conforming sort step is a permutation: no row is dropped or
duplicated. -/
theorem sort_values_desc_with_perm (alg : List ParsedRow → List ParsedRow)
    (halg : DescSortContract alg) (xs : List ParsedRow) :
    sort_values_desc_with alg xs ~ xs := by
  unfold sort_values_desc_with
  refine List.Perm.trans (List.Perm.append (halg _).1 (List.Perm.refl _)) ?_
  have h := List.filter_append_perm (fun p : ParsedRow => p.quoteVolume.isSome) xs
  refine List.Perm.trans ?_ h
  apply List.Perm.append (List.Perm.refl _)
  have heq : ∀ p : ParsedRow, (p.quoteVolume.isNone) = (!(p.quoteVolume.isSome)) := by
    intro p
    cases p.quoteVolume <;> rfl
  rw [List.filter_congr (fun a _ => heq a)]

/-- Any conforming sort step is ordered by the key descending, missing
keys at the bottom. -/
theorem pairwise_sort_values_desc_with (alg : List ParsedRow → List ParsedRow)
    (halg : DescSortContract alg) (xs : List ParsedRow) :
    (sort_values_desc_with alg xs).Pairwise qvGe := by
  unfold sort_values_desc_with
  rw [List.pairwise_append]
  refine ⟨(halg _).2, ?_, ?_⟩
  · apply pairwise_of_forall_mem
    intro a _ b hb
    have hbn : b.quoteVolume = none := Option.isNone_iff_eq_none.1 ((List.mem_filter.1 hb).2)
    unfold qvGe
    rw [hbn]
    exact oGe_none_right _
  · intro a _ b hb
    have hbn : b.quoteVolume = none := Option.isNone_iff_eq_none.1 ((List.mem_filter.1 hb).2)
    unfold qvGe
    rw [hbn]
    exact oGe_none_right _

/-- The stable instance is a permutation (used by the tie-order
insensitive claims). -/
theorem sort_values_desc_perm (xs : List ParsedRow) : sort_values_desc xs ~ xs :=
  sort_values_desc_with_perm (List.insertionSort qvGe) insertionSort_qvGe_contract xs

/-- The stable instance is ordered by the key descending, missing keys
at the bottom. -/
theorem pairwise_sort_values_desc (xs : List ParsedRow) :
    (sort_values_desc xs).Pairwise qvGe :=
  pairwise_sort_values_desc_with (List.insertionSort qvGe) insertionSort_qvGe_contract xs

/-- A row with a missing key survives `.head(50)` only when fewer than
50 rows carry a key. -/
theorem mem_take_none_lt (xs : List ParsedRow) (p : ParsedRow)
    (hp : p ∈ (sort_values_desc xs).take 50) (hnone : p.quoteVolume = none) :
    (xs.filter (fun p => p.quoteVolume.isSome)).length < 50 := by
  by_contra hge
  push_neg at hge
  have hlenW : 50 ≤ (List.insertionSort qvGe (xs.filter (fun p => p.quoteVolume.isSome))).length := by
    rw [List.length_insertionSort]
    exact hge
  have htake : (sort_values_desc xs).take 50 =
      (List.insertionSort qvGe (xs.filter (fun p => p.quoteVolume.isSome))).take 50 := by
    unfold sort_values_desc
    rw [List.take_append_eq_append_take, Nat.sub_eq_zero_of_le hlenW, List.take_zero,
      List.append_nil]
  rw [htake] at hp
  have hpW : p ∈ List.insertionSort qvGe (xs.filter (fun p => p.quoteVolume.isSome)) :=
    List.mem_of_mem_take hp
  have hsome := (List.mem_filter.1 ((List.perm_insertionSort qvGe _).mem_iff.1 hpW)).2
  rw [hnone] at hsome
  exact Bool.noConfusion hsome

/-- A skip-missing reduction over a column sees exactly the entries of
the rows where that column is present. -/
theorem filterMap_id_map_filter {α : Type _} (f : α → Option ℚ) (l : List α) :
    (l.map f).filterMap id = ((l.filter (fun a => (f a).isSome)).map f).filterMap id := by
  induction l with
  | nil => rfl
  | cons x xs ih =>
    cases hx : f x
    · simp [List.filter_cons, List.filterMap_cons, hx, ih]
    · simp [List.filter_cons, List.filterMap_cons, hx, ih]

theorem nanmean_congr (xs ys : List (Option ℚ)) (h : xs.filterMap id = ys.filterMap id) :
    nanmean xs = nanmean ys := by
  unfold nanmean
  rw [h]

theorem nanmedian_congr (xs ys : List (Option ℚ)) (h : xs.filterMap id = ys.filterMap id) :
    nanmedian xs = nanmedian ys := by
  unfold nanmedian
  rw [h]

/-! ### Claim theorems -/

/-- C1 counterexample: two eligible rows tie on `quoteVolume`.  Both
the stable sort and `revTieSort` satisfy everything pandas documents
for the default `sort_values` kind (the contract facts are stated
here at this input; `revTieSort_contract` gives them in general), yet
one admitted implementation ranks the tie in reversed input order
while the other keeps it.  The claimed original-order tie-break is
therefore not a consequence of the code, whose
`df.sort_values('quoteVolume', ascending=False)` uses the default
`kind='quicksort'` — documented by pandas as not stable. -/
theorem C1_stable_tie_break_refuted :
    revTieSort ([rowTieA, rowTieB].map parseRow) ~ [rowTieA, rowTieB].map parseRow ∧
    (revTieSort ([rowTieA, rowTieB].map parseRow)).Pairwise qvGe ∧
    (parseRow rowTieA).quoteVolume = (parseRow rowTieB).quoteVolume ∧
    (ranked_rows_with revTieSort [rowTieA, rowTieB]).map ParsedRow.symbol =
      ["BBBUSDT", "AAAUSDT"] ∧
    (ranked_rows_with (List.insertionSort qvGe) [rowTieA, rowTieB]).map ParsedRow.symbol =
      ["AAAUSDT", "BBBUSDT"] :=
  ⟨(revTieSort_contract _).1, (revTieSort_contract _).2, by decide, by decide, by decide⟩

/-- C1 (amended): for every keyed-row sort meeting the documented
contract of the default `sort_values` kind — hence for the program no
matter how its quicksort orders equal keys — a valid nonempty input
yields a table of length `min 50 n`, ordered by `quoteVolume`
descending with missing keys last, never padded and never erroring.
The relative order of rows with equal `quoteVolume` is
implementation-defined and not part of the guarantee; the shipped
`process_data` is the stable instance of the parameterised
pipeline. -/
theorem C1_table_shape_amended (alg : List ParsedRow → List ParsedRow)
    (halg : DescSortContract alg) (rows : List RawRow) (hne : rows ≠ []) :
    process_data_with alg rows = .ok ((ranked_rows_with alg rows).map toMarketRow) ∧
    ((ranked_rows_with alg rows).map toMarketRow).length = min 50 rows.length ∧
    (ranked_rows_with alg rows).Pairwise qvGe ∧
    process_data rows = process_data_with (List.insertionSort qvGe) rows := by
  refine ⟨?_, ?_, ?_, rfl⟩
  · cases rows with
    | nil => exact absurd rfl hne
    | cons a l => rfl
  · rw [List.length_map]
    unfold ranked_rows_with
    rw [List.length_take, (sort_values_desc_with_perm alg halg _).length_eq, List.length_map]
  · exact (pairwise_sort_values_desc_with alg halg _).sublist (List.take_sublist _ _)

/-- Witness for C1 (amended): the stable instance at the spec's worked
example and the tie-reversing instance at the tie example. -/
theorem C1_table_shape_amended_witness :
    process_data_with (List.insertionSort qvGe) [rowETH, rowBTC] =
      .ok ((ranked_rows_with (List.insertionSort qvGe) [rowETH, rowBTC]).map toMarketRow) ∧
    ((ranked_rows_with (List.insertionSort qvGe) [rowETH, rowBTC]).map toMarketRow).length =
      min 50 ([rowETH, rowBTC] : List RawRow).length ∧
    (ranked_rows_with (List.insertionSort qvGe) [rowETH, rowBTC]).Pairwise qvGe ∧
    process_data [rowETH, rowBTC] =
      process_data_with (List.insertionSort qvGe) [rowETH, rowBTC] ∧
    process_data_with revTieSort [rowTieA, rowTieB] =
      .ok ((ranked_rows_with revTieSort [rowTieA, rowTieB]).map toMarketRow) :=
  ⟨(C1_table_shape_amended _ insertionSort_qvGe_contract [rowETH, rowBTC] (by decide)).1,
   (C1_table_shape_amended _ insertionSort_qvGe_contract [rowETH, rowBTC] (by decide)).2.1,
   (C1_table_shape_amended _ insertionSort_qvGe_contract [rowETH, rowBTC] (by decide)).2.2.1,
   (C1_table_shape_amended _ insertionSort_qvGe_contract [rowETH, rowBTC] (by decide)).2.2.2,
   (C1_table_shape_amended _ revTieSort_contract [rowTieA, rowTieB] (by decide)).1⟩

/-- C10: in the ranking of `process_data`, a row whose `quoteVolume`
failed to parse is ordered after every row with a parsed
`quoteVolume`, and such a row reaches the 50-row table only when
fewer than 50 rows have a parsed `quoteVolume`. -/
theorem C10_missing_qv_last (rows : List RawRow) :
    (∀ i j : Fin (ranked_rows rows).length, i < j →
      ((ranked_rows rows).get i).quoteVolume = none →
      ((ranked_rows rows).get j).quoteVolume = none) ∧
    (∀ p ∈ ranked_rows rows, p.quoteVolume = none →
      ((rows.map parseRow).filter (fun p => p.quoteVolume.isSome)).length < 50) := by
  constructor
  · intro i j hij hnone
    have hpw : (ranked_rows rows).Pairwise qvGe :=
      (pairwise_sort_values_desc _).sublist (List.take_sublist _ _)
    have hr := (List.pairwise_iff_get.1 hpw) i j hij
    unfold qvGe at hr
    rw [hnone] at hr
    exact oGe_none_left hr
  · intro p hp hnone
    exact mem_take_none_lt (rows.map parseRow) p hp hnone

/-- Witness for C10: a row with unparseable `quoteVolume` is in the
table (after the keyed row), and indeed fewer than 50 rows have a
parsed `quoteVolume`. -/
theorem C10_missing_qv_last_witness :
    parseRow rowBadQV ∈ ranked_rows [rowBadQV, rowBTC] ∧
    (parseRow rowBadQV).quoteVolume = none ∧
    (ranked_rows [rowBadQV, rowBTC]).map ParsedRow.symbol = ["BTCUSDT", "XRPUSDT"] ∧
    (([rowBadQV, rowBTC].map parseRow).filter (fun p => p.quoteVolume.isSome)).length < 50 :=
  ⟨by decide, by decide, by decide,
   (C10_missing_qv_last [rowBadQV, rowBTC]).2 (parseRow rowBadQV) (by decide) (by decide)⟩

/-- C2: in every cycle's table, each row's MarketCap equals Price
times Volume — missing exactly when either factor is missing, as in
pandas `NaN` arithmetic — and `total_market_cap` of the paired stats
is the skip-missing sum of the very same MarketCap column. -/
theorem C2_market_cap (rows : List RawRow) (t : List MarketRow)
    (hok : process_data rows = .ok t) :
    (∀ r ∈ t, r.market_cap =
      match r.price, r.volume_24h with
      | some x, some v => some (x * v)
      | _, _ => none) ∧
    (analyze_market t).total_market_cap =
      ((t.map (fun r => r.market_cap)).filterMap id).sum := by
  constructor
  · intro r hr
    have ht : t = (ranked_rows rows).map toMarketRow := by
      unfold process_data at hok
      by_cases he : rows.isEmpty
      · rw [if_pos he] at hok
        exact Except.noConfusion hok
      · rw [if_neg he] at hok
        exact (Except.ok.inj hok).symm
    subst ht
    obtain ⟨p, _hp, rfl⟩ := List.mem_map.1 hr
    cases hl : p.lastPrice <;> cases hv : p.volume <;> simp [toMarketRow, hl, hv]
  · rfl

/-- Witness for C2 at the spec's worked example (the `BTCUSDT` row of
the produced table). -/
theorem C2_market_cap_witness :
    process_data [rowETH, rowBTC] = .ok ((ranked_rows [rowETH, rowBTC]).map toMarketRow) ∧
    (toMarketRow (parseRow rowBTC)).market_cap =
      (match (toMarketRow (parseRow rowBTC)).price,
          (toMarketRow (parseRow rowBTC)).volume_24h with
        | some x, some v => some (x * v)
        | _, _ => none) ∧
    (analyze_market ((ranked_rows [rowETH, rowBTC]).map toMarketRow)).total_market_cap =
      ((((ranked_rows [rowETH, rowBTC]).map toMarketRow).map
        (fun r => r.market_cap)).filterMap id).sum :=
  ⟨rfl,
   (C2_market_cap [rowETH, rowBTC] _ rfl).1 (toMarketRow (parseRow rowBTC))
     (List.mem_map.2 ⟨parseRow rowBTC, by decide, rfl⟩),
   (C2_market_cap [rowETH, rowBTC] _ rfl).2⟩

/-- C3: a row with unparseable numeric fields receives a missing
value for exactly those fields (each column is the `to_numeric` image
of the raw string), is never dropped by the ranking (the sort is a
permutation, so it reaches the table whenever it ranks in the first
50), the cycle does not crash (nonempty input yields `.ok`), and the
mean/median reductions see only the rows where the reduced column
parsed. -/
theorem C3_missing_fields (rows : List RawRow) (hne : rows ≠ []) :
    process_data rows = .ok ((ranked_rows rows).map toMarketRow) ∧
    (∀ r : RawRow,
      (parseRow r).lastPrice = to_numeric r.lastPrice ∧
      (parseRow r).volume = to_numeric r.volume ∧
      (parseRow r).quoteVolume = to_numeric r.quoteVolume ∧
      (parseRow r).priceChangePercent = to_numeric r.priceChangePercent ∧
      (parseRow r).weightedAvgPrice = to_numeric r.weightedAvgPrice) ∧
    sorted_parsed rows ~ rows.map parseRow ∧
    (∀ t : List MarketRow, process_data rows = .ok t →
      (analyze_market t).avg_price =
        nanmean ((t.filter (fun r => r.price.isSome)).map (fun r => r.price)) ∧
      (analyze_market t).median_price =
        nanmedian ((t.filter (fun r => r.price.isSome)).map (fun r => r.price)) ∧
      (analyze_market t).average_24h_change =
        nanmean ((t.filter (fun r => r.change_24h.isSome)).map (fun r => r.change_24h))) := by
  refine ⟨?_, fun r => ⟨rfl, rfl, rfl, rfl, rfl⟩, sort_values_desc_perm _, ?_⟩
  · cases rows with
    | nil => exact absurd rfl hne
    | cons a l => rfl
  · intro t _ht
    exact ⟨nanmean_congr _ _ (filterMap_id_map_filter _ t),
      nanmedian_congr _ _ (filterMap_id_map_filter _ t),
      nanmean_congr _ _ (filterMap_id_map_filter _ t)⟩

/-- Witness for C3: a row whose `priceChangePercent` does not parse
still reaches the table, with that single field missing. -/
theorem C3_missing_fields_witness :
    process_data [rowBadChange, rowBTC] =
      .ok ((ranked_rows [rowBadChange, rowBTC]).map toMarketRow) ∧
    (parseRow rowBadChange).priceChangePercent = none ∧
    (parseRow rowBadChange).lastPrice = to_numeric rowBadChange.lastPrice ∧
    parseRow rowBadChange ∈ ranked_rows [rowBadChange, rowBTC] ∧
    (analyze_market ((ranked_rows [rowBadChange, rowBTC]).map toMarketRow)).average_24h_change =
      nanmean ((((ranked_rows [rowBadChange, rowBTC]).map toMarketRow).filter
        (fun r => r.change_24h.isSome)).map (fun r => r.change_24h)) :=
  ⟨(C3_missing_fields [rowBadChange, rowBTC] (by decide)).1, by decide,
   (C3_missing_fields [rowBadChange, rowBTC] (by decide)).2.1 rowBadChange |>.1,
   by decide,
   ((C3_missing_fields [rowBadChange, rowBTC] (by decide)).2.2.2 _
     (C3_missing_fields [rowBadChange, rowBTC] (by decide)).1).2.2⟩

/-- C4 counterexample: on the empty input row sequence, aggregation
raises — `process_data []` is the `KeyError` of the column access on
the column-free empty `DataFrame` — rather than returning an empty
table with defined stats. -/
theorem C4_empty_raises : aggregate [] = .error .keyError := rfl

/-- C4 (amended): the empty row sequence deterministically raises
(`KeyError` inside `process_data`, since `pd.DataFrame([])` has no
columns); every nonempty row sequence aggregates without raising. -/
theorem C4_empty_behavior :
    aggregate ([] : List RawRow) = .error .keyError ∧
    ∀ rows : List RawRow, rows ≠ [] → (aggregate rows).isOk = true := by
  refine ⟨rfl, ?_⟩
  intro rows hne
  cases rows with
  | nil => exact absurd rfl hne
  | cons a l => rfl

/-- Witness for C4 (amended) at a one-row input. -/
theorem C4_empty_behavior_witness :
    aggregate ([] : List RawRow) = .error .keyError ∧ (aggregate [rowBTC]).isOk = true :=
  ⟨C4_empty_behavior.1, C4_empty_behavior.2 [rowBTC] (by decide)⟩

/-- C5 (code evidence): on a falsy fetch result (`None` or the empty
list) the `continue` statement skips the rest of the loop body,
including `time.sleep` — the iteration records no sleep event and the
loop refetches immediately; a successful iteration sleeps exactly
once.  This holds in both loops (main.py line 242/265, app.py line
245/274). -/
theorem C5_failed_fetch_skips_sleep :
    (run_iteration none none 10).2 = [Ev.fetched] ∧
    (run_iteration none (some []) 10).2 = [Ev.fetched] ∧
    (run_iteration none (some [rowBTC]) 10).2.count Ev.slept = 1 ∧
    (web_run_iteration ⟨none, none⟩ none 10 true true).2 = [Ev.fetched] ∧
    (web_run_iteration ⟨none, none⟩ (some []) 10 true true).2 = [Ev.fetched] ∧
    (web_run_iteration ⟨none, none⟩ (some [rowBTC]) 10 true true).2.count Ev.slept = 1 :=
  ⟨rfl, rfl, rfl, rfl, rfl, rfl⟩

/-- Unfolding of one successful-fetch `CryptoWebTracker.run`
iteration on a nonempty row list. -/
theorem web_run_iteration_ok (st : WebState) (a : RawRow) (l : List RawRow) (hour : Nat)
    (excelOk reportOk : Bool) :
    web_run_iteration st (some (a :: l)) hour excelOk reportOk =
      if excelOk = false then (st, [Ev.fetched, Ev.excelWrite, Ev.slept])
      else
        let t := (ranked_rows (a :: l)).map toMarketRow
        let st1 : WebState := { latest := some ⟨t, analyze_market t⟩, marker := st.marker }
        if st.marker = some hour then (st1, [Ev.fetched, Ev.excelWrite, Ev.slept])
        else if reportOk = false then
          (st1, [Ev.fetched, Ev.excelWrite, Ev.docWrite, Ev.slept])
        else ({ latest := st1.latest, marker := some hour },
              [Ev.fetched, Ev.excelWrite, Ev.docWrite, Ev.slept]) := rfl

/-- C6 counterexample: a failing spreadsheet write does prevent the
snapshot update — `latest_data` keeps its previous value (`none`
here), while the same cycle with a succeeding spreadsheet write
installs this cycle's snapshot. -/
theorem C6_excel_failure_blocks_snapshot :
    (web_run_iteration ⟨none, none⟩ (some [rowBTC]) 10 false true).1.latest = none ∧
    (web_run_iteration ⟨none, none⟩ (some [rowBTC]) 10 true true).1.latest =
      some ⟨(ranked_rows [rowBTC]).map toMarketRow,
            analyze_market ((ranked_rows [rowBTC]).map toMarketRow)⟩ :=
  ⟨rfl, rfl⟩

/-- C6 (amended): a document-write failure prevents neither the
snapshot update (the update precedes it) nor the next cycle; a
spreadsheet-write failure — raised before the update in the same try
block — leaves the snapshot unchanged for that cycle, though the loop
still reaches the sleep and the next cycle runs. -/
theorem C6_write_failures (st : WebState) (rows : List RawRow) (hour : Nat)
    (hne : rows ≠ []) :
    (web_run_iteration st (some rows) hour true false).1.latest =
      some ⟨(ranked_rows rows).map toMarketRow,
            analyze_market ((ranked_rows rows).map toMarketRow)⟩ ∧
    (web_run_iteration st (some rows) hour false true).1.latest = st.latest ∧
    Ev.slept ∈ (web_run_iteration st (some rows) hour true false).2 ∧
    Ev.slept ∈ (web_run_iteration st (some rows) hour false true).2 := by
  obtain ⟨a, l, rfl⟩ : ∃ a l, rows = a :: l := by
    cases rows with
    | nil => exact absurd rfl hne
    | cons a l => exact ⟨a, l, rfl⟩
  simp only [web_run_iteration_ok]
  by_cases hm : st.marker = some hour <;> simp [hm]

/-- Witness for C6 (amended): concrete state with no prior snapshot. -/
theorem C6_write_failures_witness :
    (web_run_iteration ⟨none, none⟩ (some [rowBTC]) 10 true false).1.latest =
      some ⟨(ranked_rows [rowBTC]).map toMarketRow,
            analyze_market ((ranked_rows [rowBTC]).map toMarketRow)⟩ ∧
    (web_run_iteration ⟨none, none⟩ (some [rowBTC]) 10 false true).1.latest = none ∧
    Ev.slept ∈ (web_run_iteration ⟨none, none⟩ (some [rowBTC]) 10 true false).2 ∧
    Ev.slept ∈ (web_run_iteration ⟨none, none⟩ (some [rowBTC]) 10 false true).2 :=
  C6_write_failures ⟨none, none⟩ [rowBTC] 10 (by decide)

/-- C7 counterexample: an exception raised in the document write is
caught, but the cycle has already produced a snapshot — after the
cycle, `latest_data` holds this cycle's data, not the value from
before the cycle began (`none` here). -/
theorem C7_doc_failure_keeps_new_snapshot :
    (web_run_iteration ⟨none, none⟩ (some [rowBTC]) 10 true false).1.latest ≠ none ∧
    (web_run_iteration ⟨none, none⟩ (some [rowBTC]) 10 true false).1.latest =
      some ⟨(ranked_rows [rowBTC]).map toMarketRow,
            analyze_market ((ranked_rows [rowBTC]).map toMarketRow)⟩ :=
  ⟨fun h => Option.noConfusion h, rfl⟩

/-- C7 (amended): every exception is caught at the loop level and the
loop reaches the next cycle; a cycle failing in fetching or in the
spreadsheet write produces nothing — the previous snapshot stays
visible — while an exception in the document write occurs after the
snapshot update, so that cycle's new snapshot is what remains
visible. -/
theorem C7_exception_snapshot (st : WebState) (rows : List RawRow) (hour : Nat)
    (hne : rows ≠ []) :
    (web_run_iteration st none hour true true).1 = st ∧
    (web_run_iteration st (some rows) hour false true).1.latest = st.latest ∧
    (web_run_iteration st (some rows) hour true false).1.latest =
      some ⟨(ranked_rows rows).map toMarketRow,
            analyze_market ((ranked_rows rows).map toMarketRow)⟩ := by
  obtain ⟨a, l, rfl⟩ : ∃ a l, rows = a :: l := by
    cases rows with
    | nil => exact absurd rfl hne
    | cons a l => exact ⟨a, l, rfl⟩
  refine ⟨rfl, ?_, ?_⟩ <;> simp only [web_run_iteration_ok] <;>
    by_cases hm : st.marker = some hour <;> simp [hm]

/-- Witness for C7 (amended): concrete state with a prior marker but
no prior snapshot. -/
theorem C7_exception_snapshot_witness :
    (web_run_iteration ⟨none, some 9⟩ none 10 true true).1 = (⟨none, some 9⟩ : WebState) ∧
    (web_run_iteration ⟨none, some 9⟩ (some [rowBTC]) 10 false true).1.latest = none ∧
    (web_run_iteration ⟨none, some 9⟩ (some [rowBTC]) 10 true false).1.latest =
      some ⟨(ranked_rows [rowBTC]).map toMarketRow,
            analyze_market ((ranked_rows [rowBTC]).map toMarketRow)⟩ :=
  C7_exception_snapshot ⟨none, some 9⟩ [rowBTC] 10 (by decide)

/-- C9 counterexample: three successful cycles in the same wall-clock
hour starting from a fresh marker.  The second and the third cycle
form a pair of consecutive successful cycles completed within one
hour, yet neither of them writes the document (`false, false`) — the
claim demands exactly one write, on the first of every such pair. -/
theorem C9_same_hour_pair_without_write :
    writes_of none [10, 10, 10] = [true, false, false] := rfl

/-- C9 (amended): a successful cycle writes the document iff its hour
differs from the marker, and then sets the marker to that hour; the
second of two consecutive same-hour successful cycles therefore never
writes — such a pair has exactly one write (on the first) only when
the marker differed before the first — and a successful cycle in a
new hour triggers exactly one more write and updates the marker. -/
theorem C9_report_gate (m : Option Nat) (h h2 : Nat) :
    (m ≠ some h → report_step m h = (some h, true)) ∧
    (m = some h → report_step m h = (m, false)) ∧
    (h2 = h → (report_step (report_step m h).1 h2).2 = false) := by
  refine ⟨?_, ?_, ?_⟩
  · intro hne
    unfold report_step
    rw [if_neg hne]
  · intro he
    unfold report_step
    rw [if_pos he]
  · intro he
    subst he
    unfold report_step
    by_cases hm : m = some h2 <;> simp [hm]

/-- Witness for C9 (amended) at hour 10. -/
theorem C9_report_gate_witness :
    report_step none 10 = (some 10, true) ∧
    report_step (some 10) 10 = (some 10, false) ∧
    (report_step (report_step none 10).1 10).2 = false :=
  ⟨(C9_report_gate none 10 10).1 (by decide),
   (C9_report_gate (some 10) 10 10).2.1 rfl,
   (C9_report_gate none 10 10).2.2 rfl⟩

/-! ### Base-symbol derivation (C8) -/

/-- Modelled from the spec's words, for comparison with the code's
`replace('USDT', '')`: "the base symbol is the symbol with the `USDT`
suffix removed" — drop exactly the four-character suffix. -/
def suffixStrippedUSDT (s : String) : String := ⟨s.toList.take (s.toList.length - 4)⟩

theorem removeUSDTGo_nil (fuel : Nat) : removeUSDTGo fuel [] = [] := by
  cases fuel <;> rfl

/-- `replace('USDT', '')` strips exactly the `"USDT"` suffix whenever
`"USDT"` does not occur in the rest of the string. -/
theorem removeUSDTGo_append (cs : List Char) (h : containsUSDT cs = false) :
    ∀ fuel, (cs ++ usdtChars).length ≤ fuel → removeUSDTGo fuel (cs ++ usdtChars) = cs := by
  induction cs with
  | nil =>
    intro fuel hfuel
    obtain ⟨f, rfl⟩ : ∃ f, fuel = f + 4 := by
      simp [usdtChars] at hfuel
      exact ⟨fuel - 4, by omega⟩
    rfl
  | cons c rest ih =>
    intro fuel hfuel
    obtain ⟨f, rfl⟩ : ∃ f, fuel = f + 1 := by
      refine ⟨fuel - 1, ?_⟩
      simp [usdtChars] at hfuel
      omega
    have hlen : (rest ++ usdtChars).length ≤ f := by
      simp [usdtChars] at hfuel ⊢
      omega
    have h2 : usdtChars.isPrefixOf (c :: rest) = false ∧ containsUSDT rest = false := by
      simpa [containsUSDT] using h
    show (if usdtChars.isPrefixOf (c :: (rest ++ usdtChars)) then
        removeUSDTGo f ((c :: (rest ++ usdtChars)).drop 4)
      else c :: removeUSDTGo f (rest ++ usdtChars)) = c :: rest
    by_cases hp : usdtChars.isPrefixOf (c :: (rest ++ usdtChars)) = true
    · exfalso
      have hpre : usdtChars <+: c :: (rest ++ usdtChars) := by simpa using hp
      obtain ⟨t, ht⟩ := hpre
      rcases rest with _ | ⟨d, _ | ⟨e, _ | ⟨f', rs⟩⟩⟩
      · simp [usdtChars, List.cons.injEq] at ht
      · simp [usdtChars, List.cons.injEq] at ht
      · simp [usdtChars, List.cons.injEq] at ht
      · simp only [usdtChars, List.cons_append, List.cons.injEq] at ht
        obtain ⟨hc, hd, he, hf, _⟩ := ht
        subst hc
        subst hd
        subst he
        subst hf
        simp [usdtChars, List.isPrefixOf] at h2
    · rw [if_neg hp, ih h2.2 f hlen]

/-- `replace('USDT', '')` coincides with suffix-stripping whenever
`"USDT"` occurs only as the suffix. -/
theorem removeUSDT_append_suffix (cs : List Char) (h : containsUSDT cs = false) :
    removeUSDT (cs ++ usdtChars) = cs :=
  removeUSDTGo_append cs h _ (le_refl _)

/-- A ticker whose symbol contains `"USDT"` twice (and ends with it,
so it is eligible). -/
def tickerUSDTUSDT : RawTicker :=
  { symbol := "USDTUSDT", lastPrice := "1", volume := "1", quoteVolume := "1",
    priceChangePercent := "0", weightedAvgPrice := "1" }

/-- An ordinary eligible ticker. -/
def tickerBTC : RawTicker :=
  { symbol := "BTCUSDT", lastPrice := "50000", volume := "10", quoteVolume := "500000",
    priceChangePercent := "2", weightedAvgPrice := "49000" }

/-- The row `get_market_data` produces from `tickerBTC` under the name
map sending `"BTC"` to `"Bitcoin"`. -/
def rowFromTicker : RawRow :=
  { symbol := "BTCUSDT", name := "Bitcoin", lastPrice := "50000", volume := "10",
    quoteVolume := "500000", priceChangePercent := "2", weightedAvgPrice := "49000" }

/-- C8 counterexample: the eligible symbol `"USDTUSDT"` (it ends with
`"USDT"`).  `replace('USDT', '')` removes both occurrences, yielding
`""`, while removing only the suffix leaves `"USDT"`; with an empty
name map the attached display name is therefore `""`, not the
suffix-stripped base symbol. -/
theorem C8_replace_removes_all_occurrences :
    endsWithUSDT "USDTUSDT" = true ∧
    removeUSDTs "USDTUSDT" = "" ∧
    suffixStrippedUSDT "USDTUSDT" = "USDT" ∧
    (get_market_data [] [tickerUSDTUSDT]).map RawRow.name = [""] ∧
    ("" : String) ≠ "USDT" :=
  ⟨by decide, by decide, by decide, by decide, by decide⟩

/-- C8 (amended): for every row produced by `get_market_data`, the
symbol is eligible (`USDT`-suffixed) and the display name is the name
map's entry for the uppercased symbol with every occurrence of
`"USDT"` removed, falling back to that key itself; the table's Symbol
column is the symbol with every occurrence of `"USDT"` removed (not
uppercased); and removing all occurrences coincides with stripping
the suffix whenever `"USDT"` does not occur before the suffix. -/
theorem C8_base_symbol (names : List (String × String)) (data : List RawTicker) :
    (∀ r ∈ get_market_data names data,
      endsWithUSDT r.symbol = true ∧
      r.name = ((names.lookup (upperStr (removeUSDTs r.symbol))).getD
        (upperStr (removeUSDTs r.symbol)))) ∧
    (∀ p : ParsedRow, (toMarketRow p).symbol = removeUSDTs p.symbol) ∧
    (∀ cs : List Char, containsUSDT cs = false → removeUSDT (cs ++ usdtChars) = cs) := by
  refine ⟨?_, fun p => rfl, removeUSDT_append_suffix⟩
  intro r hr
  unfold get_market_data at hr
  obtain ⟨t, ht, rfl⟩ := List.mem_map.1 hr
  exact ⟨(List.mem_filter.1 ht).2, rfl⟩

/-- Witness for C8 (amended): the `BTCUSDT` ticker with a name map
containing `"BTC"`, plus the suffix-coincidence at `"TUSD"`. -/
theorem C8_base_symbol_witness :
    rowFromTicker ∈ get_market_data [("BTC", "Bitcoin")] [tickerBTC] ∧
    endsWithUSDT rowFromTicker.symbol = true ∧
    rowFromTicker.name = ((([("BTC", "Bitcoin")] : List (String × String)).lookup
      (upperStr (removeUSDTs rowFromTicker.symbol))).getD
      (upperStr (removeUSDTs rowFromTicker.symbol))) ∧
    (toMarketRow (parseRow rowBTC)).symbol = removeUSDTs (parseRow rowBTC).symbol ∧
    containsUSDT "TUSD".toList = false ∧
    removeUSDT ("TUSD".toList ++ usdtChars) = "TUSD".toList :=
  ⟨by decide,
   ((C8_base_symbol [("BTC", "Bitcoin")] [tickerBTC]).1 rowFromTicker (by decide)).1,
   ((C8_base_symbol [("BTC", "Bitcoin")] [tickerBTC]).1 rowFromTicker (by decide)).2,
   (C8_base_symbol [] []).2.1 (parseRow rowBTC),
   by decide,
   (C8_base_symbol [] []).2.2 "TUSD".toList (by decide)⟩

end Crypto
